import Mathlib

/-!
Verification of the SEC XBRL extraction core (`sec_pipeline`).

This file gives a shallow embedding of the transformation/extraction engine of
`sec_pipeline` (principally `sec_pipeline/transformation/xbrl_parser.py` and
`sec_pipeline/config/__init__.py`) and proves properties of it.

Modelling conventions:

* Arelle model objects (contexts, units, facts, concepts, relationships) are
  modelled as Lean structures carrying exactly the attributes the extractor
  reads.  An attribute whose Python access can be absent (a failing `hasattr`
  probe) or whose value can be `None` is modelled with `Option`; where both
  states are observable they are modelled with nested `Option`s, and where the
  extractor treats them identically they are flattened to a single `Option`.
* Python dictionaries produced by the extractor are modelled as structures.
  A field of type `Option α` that corresponds to a *conditionally added* key
  uses `none` for "key absent"; keys that are always written but may hold
  `null` are also `Option`-typed, and the distinction is noted per field.
* `html.unescape` (HTML entity decoding) is kept abstract: every definition
  that uses it takes a function `unescape : String → String` as a parameter.
  No verified property depends on the content of decoded text.
* The character classes of the Python `re` module (`\d`, `\s`) and `str.lower` are modelled
  over ASCII; the repository only feeds ASCII role URIs and definitions.
* Machine floats (`float(rel.order)`, `float(rel.weight)`) are modelled as
  integers: on the modelled inputs the conversion is value preserving and no
  verified property inspects the numeric value, only its presence.
-/

namespace SecXbrl

/-! ## Python-semantics helpers -/

/-- Python `\s` over ASCII: space, tab, newline, carriage return, vertical
tab, form feed. -/
def pyIsSpace (c : Char) : Bool :=
  c = ' ' || c = '\t' || c = '\n' || c = '\r' || c = '\x0b' || c = '\x0c'

/-- Python `\d` over ASCII. -/
def pyIsDigit (c : Char) : Bool :=
  '0' ≤ c && c ≤ '9'

/-- Python `a or default` for a possibly-`None` string `a`: the empty string
and `None` are falsy. -/
def pyOrD (o : Option String) (d : String) : String :=
  match o with
  | some s => if s = "" then d else s
  | none => d

/-- Python `x if x else None` for a possibly-`None` numeric attribute: `None`
and `0` are falsy.  Models the `float(rel.order) if rel.order else None`
pattern (the `float` conversion is value preserving on modelled inputs). -/
def pyNumOpt (o : Option Int) : Option Int :=
  match o with
  | some n => if n = 0 then none else some n
  | none => none

/-- Python `x if x else None` for a possibly-`None` string attribute: `None`
and `""` are falsy. -/
def pyStrOpt (o : Option String) : Option String :=
  match o with
  | some s => if s = "" then none else some s
  | none => none

/-- Python substring test `pat in l` on character lists. -/
def listContainsSub (pat : List Char) : List Char → Bool
  | [] => decide (pat = [])
  | c :: tl => pat.isPrefixOf (c :: tl) || listContainsSub pat tl

/-- Lexicographic code-point comparison of character lists (Python `<` on
`str`). -/
def charListLt : List Char → List Char → Bool
  | [], [] => false
  | [], _ :: _ => true
  | _ :: _, [] => false
  | a :: as, b :: bs =>
    if a.toNat < b.toNat then true
    else if b.toNat < a.toNat then false
    else charListLt as bs

/-- Python `s <= t` on strings. -/
def strLeB (s t : String) : Bool :=
  charListLt s.data t.data || decide (s = t)

/-- Insert a string into a sorted list (ascending code-point order, as Python
`sorted` on `str`). -/
def insertSorted (s : String) : List String → List String
  | [] => [s]
  | t :: ts => if strLeB s t then s :: t :: ts else t :: insertSorted s ts

/-- Python `sorted` on a list of strings. -/
def sortStrings (l : List String) : List String :=
  l.foldr insertSorted []

/-- Python `str.lower` (ASCII). -/
def pyLower (s : String) : String :=
  String.mk (s.data.map Char.toLower)

/-- Python `str.strip()`: delete leading and trailing whitespace. -/
def pyStrip (l : List Char) : List Char :=
  ((l.dropWhile pyIsSpace).reverse.dropWhile pyIsSpace).reverse

/-! ## Role definition parsing (sec_pipeline/config/__init__.py, `parse_role_definition`)

`_DEFINITION_RE = re.compile(r"^\d+\s*-\s*(.+?)\s*-\s*(.+)$")` matched with
`re.match`, with both captures `.strip()`-ed on success.  The matcher below
reproduces the backtracking regex semantics: `.` does not match a newline,
`$` also matches just before a terminal newline, `(.+?)` is lazy, the `\s*`
runs are greedy with backtracking. -/

/-- Match `\s*(.+)$` against `t` and return the capture: greedy whitespace
skip, backtracking one whitespace character back into the capture when the
remainder would otherwise be empty; fails when a newline would have to be
part of the capture. -/
def grp2 (t : List Char) : Option (List Char) :=
  let core := if t.getLast? = some '\n' then t.dropLast else t
  if core.any (fun c => c = '\n') then none
  else
    let body := core.dropWhile pyIsSpace
    if body ≠ [] then some body
    else
      match core.getLast? with
      | some c => some [c]
      | none => none

/-- Match `\s*-\s*(.+)$` against `t`, returning the capture of `(.+)`. -/
def sepThen (t : List Char) : Option (List Char) :=
  match t.dropWhile pyIsSpace with
  | '-' :: rest => grp2 rest
  | _ => none

/-- Match `(.+?)\s*-\s*(.+)$` against the second argument: the lazy first
capture grows one character at a time (never across a newline), and after
each growth the tail `\s*-\s*(.+)$` is attempted. -/
def lazySplit (acc : List Char) : List Char → Option (List Char × List Char)
  | [] => none
  | c :: rest =>
    if c = '\n' then none
    else
      match sepThen rest with
      | some g2 => some (acc ++ [c], g2)
      | none => lazySplit (acc ++ [c]) rest

/-- Backtrack the greedy `\s*` that precedes the lazy capture: try giving it
`w` characters, then `w - 1`, ... down to `0`. -/
def tryWs (rest : List Char) : Nat → Option (List Char × List Char)
  | 0 => lazySplit [] rest
  | w + 1 =>
    match lazySplit [] (rest.drop (w + 1)) with
    | some r => some r
    | none => tryWs rest w

/-- Model of `parse_role_definition` from `sec_pipeline/config/__init__.py`: parse an
EDGAR role definition `NNNNNN - Category - Description` into
`(category, description)`, `none` when the definition does not conform. -/
def parse_role_definition (s : String) : Option (String × String) :=
  let cs := s.data
  let digits := cs.takeWhile pyIsDigit
  if digits = [] then none
  else
    match (cs.dropWhile pyIsDigit).dropWhile pyIsSpace with
    | '-' :: rest =>
      match tryWs rest (rest.takeWhile pyIsSpace).length with
      | some (g1, g2) => some (String.mk (pyStrip g1), String.mk (pyStrip g2))
      | none => none
    | _ => none

/-! ## HTML stripping (sec_pipeline/transformation/xbrl_parser.py, `strip_html`)

`strip_html` decodes HTML entities (`html.unescape`, kept abstract), removes
every `<[^>]+>` tag span, collapses every whitespace run to a single
space and strips the ends. -/

/-- Scan to the first `'>'`, returning the remainder after it. -/
def skipToGt : List Char → Option (List Char)
  | [] => none
  | c :: cs => if c = '>' then some cs else skipToGt cs

/-- Tag removal (the `<[^>]+>` substitution): delete every span from a `'<'` through the
first following `'>'` with at least one character in between; a `'<'` with
no such closing `'>'` is kept.  Each step consumes at least one character,
so recursion on a step counter initialized to the input length is exact. -/
def removeTagsAux : Nat → List Char → List Char
  | 0, _ => []
  | _ + 1, [] => []
  | fuel + 1, c :: cs =>
    if c = '<' then
      match cs with
      | [] => ['<']
      | c2 :: rest =>
        if c2 = '>' then '<' :: removeTagsAux fuel (c2 :: rest)
        else
          match skipToGt rest with
          | some after => removeTagsAux fuel after
          | none => '<' :: removeTagsAux fuel (c2 :: rest)
    else c :: removeTagsAux fuel cs

/-- Tag removal over the whole input. -/
def removeTags (l : List Char) : List Char :=
  removeTagsAux l.length l

/-- Whitespace collapsing: replace each maximal whitespace run by a single
space.  The flag records whether the previous character was whitespace. -/
def collapseWsAux (prevSpace : Bool) : List Char → List Char
  | [] => []
  | c :: cs =>
    if pyIsSpace c then
      if prevSpace then collapseWsAux true cs
      else ' ' :: collapseWsAux true cs
    else c :: collapseWsAux false cs

/-- Model of `strip_html(text)` for a string input (the `isinstance(text, str)` guard
always passes on the modelled inputs). -/
def strip_html (unescape : String → String) (text : String) : String :=
  String.mk (pyStrip (collapseWsAux false (removeTags (unescape text).data)))

/-! ## Input data model (the Arelle objects the extractor reads)

Concepts are identified throughout the extractor by the string rendering of
their qualified name (`str(concept.qname)`), which is also the key used for
cycle detection; relationship endpoints are therefore modelled directly as
qname strings. -/

/-- An Arelle `QName` as observed by the extractor.  `localName` is always
present on a QName object; `namespaceURI` and `prefix` may be `None`
(`prefix` is rendered as the field `pfx`). -/
structure QNameIn where
  qstr : String
  localName : String
  nsURI : Option String
  pfx : Option String
  deriving Repr, DecidableEq

/-- A dimension value object (`ModelDimensionValue`).  `memberQname` is
`none` when the object has no such attribute (a typed dimension), and
`some none` when the attribute is present but `None`.  `typedMemberStr` is
the string the source computes from `typedMember` (via `stringValue` or
`str`), `none` when there is no `typedMember` attribute.  `memberLabel` is
the result of `dim_value.member.label(lang="en-US")`, collapsed to `none`
when the member is absent or `None`, the call raises, or it returns `None`. -/
structure DimValIn where
  memberQname : Option (Option QNameIn)
  typedMemberStr : Option String
  memberLabel : Option String
  deriving Repr, DecidableEq

/-- Which of the mutually exclusive period predicates
(`isInstantPeriod` / `isStartEndPeriod` / `isForeverPeriod`) holds; `noneK`
when none does. -/
inductive PeriodKind where
  | instantK
  | startEndK
  | foreverK
  | noneK
  deriving Repr, DecidableEq

/-- An Arelle context.  `entityIdentifier` is the `(scheme, identifier)`
pair; `none` models the attribute access raising (so `hasattr` probes are
false).  The datetime attributes hold the `str(...)` rendering, `none` when
the attribute is `None`.  `qnameDims` is `none` when the attribute is
absent; its entries are `(dim_qname, dim_value)` pairs, either component
possibly `None`. -/
structure ContextIn where
  entityIdentifier : Option (String × String)
  periodKind : PeriodKind
  instantDatetime : Option String
  startDatetime : Option String
  endDatetime : Option String
  qnameDims : Option (List (Option QNameIn × Option DimValIn))
  deriving Repr, DecidableEq

/-- An Arelle unit.  `measures` is the tuple of measure groups, each measure
already rendered via `str`.  The `ModelUnit` class of Arelle always
exposes the `measures` property, so the `hasattr` guard in the source
always passes and the field is required. -/
structure UnitIn where
  measures : List (List String)
  deriving Repr, DecidableEq

/-- The concept object reached from a fact (`fact.concept`).
`standardLabel`/`terseLabel` model `concept.label(...)`: the outer `none`
means the call raises, `some none` that it returns `None`.  `typeQname` is
the collapsed result of the `fact.concept.type.qname` probe chain: `some s`
iff every step succeeds with rendering `s`. -/
structure ConceptRefIn where
  standardLabel : Option (Option String)
  terseLabel : Option (Option String)
  typeQname : Option String
  deriving Repr, DecidableEq

/-- An Arelle fact.  `contextID`, `value` and `unitID` may be `None`;
`context` and `concept` may be unresolved (`None`); `decimals`/`precision`
collapse the `hasattr` probe and a `None` value to `none`; `factId` is
`fact.id`, `sourceline` is `fact.sourceline` (0 is falsy), `docBasename`
is `fact.modelDocument.basename`, `none` when any probe on that chain
fails. -/
structure FactIn where
  qname : QNameIn
  contextID : Option String
  value : Option String
  unitID : Option String
  context : Option ContextIn
  concept : Option ConceptRefIn
  isNumeric : Bool
  decimals : Option String
  precision : Option String
  factId : Option String
  sourceline : Option Nat
  docBasename : Option String
  deriving Repr, DecidableEq

/-- A label resource reached from a concept-label relationship
(`rel.toModelObject`): its role, text and language, each possibly `None`. -/
structure LabelResIn where
  role : Option String
  text : Option String
  xmlLang : Option String
  deriving Repr, DecidableEq

/-- A taxonomy concept (value of `model_xbrl.qnameConcepts`).  The label
fields collapse a raising or `None`-returning `concept.label(...)` call to
`none`.  The boolean flags are `none` when the attribute is absent (the
source defaults them to `False`).  `labelRels` lists the concept-label
relationships of the concept; an entry is `none` when `rel.toModelObject`
is `None`. -/
structure TaxConceptIn where
  standardLabel : Option String
  terseLabel : Option String
  verboseLabel : Option String
  docLabel : Option String
  isNumeric : Option Bool
  isMonetary : Option Bool
  isAbstract : Option Bool
  balance : Option String
  periodType : Option String
  typeQname : Option String
  baseXsdType : Option String
  substitutionGroupQname : Option String
  labelRels : List (Option LabelResIn)
  deriving Repr, DecidableEq

/-- A role type object (`model_xbrl.roleTypes[uri][i]`).  `definition`
collapses the `hasattr` probe and a `None` value; `genLabel` is the result
of `genLabel(lang="en-US", strip=True)`, `none` when the call raises or
returns `None`. -/
structure RoleTypeIn where
  definition : Option String
  genLabel : Option String
  deriving Repr, DecidableEq

/-- A presentation (parent-child) relationship.  Endpoints are the qname
strings of `fromModelObject`/`toModelObject`. -/
structure PresEdge where
  fromQ : String
  toQ : String
  order : Option Int
  preferredLabel : Option String
  linkrole : String
  priority : Option Int
  deriving Repr, DecidableEq

/-- A calculation (summation-item) relationship.  Endpoint qname renderings
are `none` when resolving the endpoint raises (the per-relationship handler
then skips the record). -/
structure CalcEdgeIn where
  fromQ : Option String
  toQ : Option String
  weight : Option Int
  order : Option Int
  linkrole : Option String
  priority : Option Int
  deriving Repr, DecidableEq

/-- A flat definition-linkbase relationship (all/notAll,
hypercube-dimension, dimension-domain, dimension-default).  `closedA` models
the `closed` attribute: `none` when absent, `some v` when present with
possibly-`None` value `v`. -/
structure DefEdgeIn where
  fromQ : Option String
  toQ : Option String
  linkrole : Option String
  order : Option Int
  priority : Option Int
  closedA : Option (Option String)
  deriving Repr, DecidableEq

/-- A domain-member relationship (walked hierarchically, so endpoints are
resolved qname strings). -/
structure DMEdge where
  fromQ : String
  toQ : String
  linkrole : String
  order : Option Int
  priority : Option Int
  deriving Repr, DecidableEq

/-- The loaded Arelle model (`ModelXbrl`) as consumed by
`_extract_all_data`: instance data, taxonomy data and one relationship list
per arcrole, plus the root-concept enumerations the provider supplies for the two
hierarchical arcroles (`none` when the `rootConcepts` attribute is absent).
`calcRels11` is `none` when the running `XbrlConst` lacks
`summationItem11`. -/
structure ModelXbrlIn where
  modelDocumentType : Option String
  contexts : List (String × ContextIn)
  units : List (String × UnitIn)
  facts : List FactIn
  qnameConcepts : List (QNameIn × TaxConceptIn)
  roleTypes : List (String × List RoleTypeIn)
  presRels : List PresEdge
  presRoots : Option (List String)
  calcRels : List CalcEdgeIn
  calcRels11 : Option (List CalcEdgeIn)
  allRels : List DefEdgeIn
  notAllRels : List DefEdgeIn
  hypercubeDimensionRels : List DefEdgeIn
  dimensionDomainRels : List DefEdgeIn
  dimensionDefaultRels : List DefEdgeIn
  domainMemberRels : List DMEdge
  domainMemberRoots : Option (List String)
  deriving Repr, DecidableEq

/-! ## Output data model (the JSON-serializable records)

A structure field of type `Option _` whose doc note says "key absent" uses
`none` for a key that is omitted from the emitted dictionary; otherwise an
`Option` field is an always-present key holding a possibly-`null` value. -/

/-- The `period` sub-dictionary of context and fact records: its shape is
determined by the period classification (an empty dictionary when no period
predicate holds). -/
inductive PeriodOut where
  | instantP (instant : Option String)
  | durationP (start_date end_date : Option String)
  | foreverP
  | emptyP
  deriving Repr, DecidableEq

/-- The `entity` sub-dictionary. -/
structure EntityOut where
  identifier : String
  scheme : String
  deriving Repr, DecidableEq

/-- A dimension record of a context record. -/
structure CtxDimOut where
  dimension : String
  dimType : String
  value : Option String
  deriving Repr, DecidableEq

/-- A context record.  `dimensions`: key absent when no dimension entry was
collected. -/
structure ContextOut where
  id : String
  entity : EntityOut
  period : PeriodOut
  dimensions : Option (List CtxDimOut)
  deriving Repr, DecidableEq

/-- A unit record.  `measures`, `measure`: keys only of simple units
(`measure` is nullable); `numerator`, `denominator`, `numerator_measure`,
`denominator_measure`: keys only of divide units (the `_measure` values are
nullable). -/
structure UnitOut where
  id : String
  unit_type : String
  measures : Option (List String)
  measure : Option (Option String)
  numerator : Option (List String)
  denominator : Option (List String)
  numerator_measure : Option (Option String)
  denominator_measure : Option (Option String)
  deriving Repr, DecidableEq

/-- A dimension record of a fact record.  `member`, `member_name`,
`member_label`, `value`: keys absent unless the corresponding branch sets
them. -/
structure FactDimOut where
  axis : String
  axis_name : String
  dimType : String
  member : Option String
  member_name : Option String
  member_label : Option String
  value : Option String
  deriving Repr, DecidableEq

/-- A fact record.  `context_ref`, `value`, `unit_ref` are always-present
nullable keys; `period`, `entity_scheme`, `entity_identifier`,
`dimensions`, `label`, `terse_label`, `data_type`, `html_anchor_id`,
`source_line`, `source_file` are keys absent unless set; `decimals` and
`precision` are keys present exactly for numeric facts, holding a nullable
value. -/
structure FactOut where
  concept : String
  concept_name : String
  context_ref : Option String
  value : Option String
  unit_ref : Option String
  period : Option PeriodOut
  entity_scheme : Option String
  entity_identifier : Option String
  dimensions : Option (List FactDimOut)
  label : Option String
  terse_label : Option String
  is_numeric : Bool
  decimals : Option (Option String)
  precision : Option (Option String)
  data_type : Option String
  html_anchor_id : Option String
  source_line : Option Nat
  source_file : Option String
  deriving Repr, DecidableEq

/-- A taxonomy-concept record (all keys always present; the JSON key
`prefix` is rendered as `pfx` and `documentation` as `docText`). -/
structure ConceptOut where
  qname : String
  local_name : String
  namespace_uri : Option String
  pfx : Option String
  standard_label : Option String
  terse_label : Option String
  verbose_label : Option String
  docText : Option String
  data_type : Option String
  base_xsd_type : Option String
  is_numeric : Bool
  is_monetary : Bool
  balance : Option String
  period_type : Option String
  is_abstract : Bool
  substitution_group : Option String
  deriving Repr, DecidableEq

/-- A label-linkbase record. -/
structure LabelOut where
  concept_qname : String
  label_role : Option String
  label_text : String
  language : String
  deriving Repr, DecidableEq

/-- A statement-role record. -/
structure StatementRoleOut where
  role_uri : String
  statement_type : String
  statement_name : String
  display_order : Nat
  deriving Repr, DecidableEq

/-- A presentation-relationship record. -/
structure PresRelOut where
  parent_concept : String
  child_concept : String
  depth : Nat
  order : Option Int
  preferred_label_role : Option String
  role_uri : String
  priority : Option Int
  deriving Repr, DecidableEq

/-- A calculation-relationship record. -/
structure CalcRelOut where
  total_concept : String
  component_concept : String
  weight : Option Int
  order : Option Int
  role_uri : Option String
  priority : Option Int
  deriving Repr, DecidableEq

/-- A definition-relationship record (flat arcroles and domain-member).
`is_closed`: key present only for all/notAll relationships carrying the
`closed` attribute (nullable value); `depth`: key present only for
domain-member records. -/
structure DefRelOut where
  from_concept : String
  to_concept : String
  relationship_type : String
  role_uri : Option String
  order : Option Int
  priority : Option Int
  is_closed : Option (Option String)
  depth : Option Nat
  deriving Repr, DecidableEq

/-- The `document_info` record. -/
structure DocumentInfoOut where
  document_type : Option String
  entity : Option EntityOut
  deriving Repr, DecidableEq

/-- The `summary` record. -/
structure SummaryOut where
  total_facts : Nat
  total_contexts : Nat
  total_units : Nat
  namespaces : List String
  deriving Repr, DecidableEq

/-- The aggregate document: the eleven top-level keys of the produced
JSON. -/
structure DocumentOut where
  document_info : DocumentInfoOut
  contexts : List ContextOut
  units : List UnitOut
  facts : List FactOut
  concepts : List ConceptOut
  labels : List LabelOut
  statement_roles : List StatementRoleOut
  presentation_relationships : List PresRelOut
  calculation_relationships : List CalcRelOut
  definition_relationships : List DefRelOut
  summary : SummaryOut
  deriving Repr, DecidableEq

/-! ## The extractors

Each `_extract_*` method of `XBRLParserService` receives the whole
`model_xbrl`; the Lean embeddings receive the fields the method actually
reads.  Methods whose per-element bodies are wrapped in `try/except` but
consist only of total modelled operations are embedded as total functions;
the one per-element access the source leaves unguarded —
`context.entityIdentifier` in `_extract_contexts` — is embedded in the
`Except` monad. -/

/-- Python `str(x)` applied to a possibly-`None` qname (`str(None)` is the string
`"None"`, which the context dimension path can produce). -/
def pyStrQ (q : Option QNameIn) : String :=
  match q with
  | some qn => qn.qstr
  | none => "None"

/-- Model of `_extract_document_info`: document type plus the entity of the first
context when its `entityIdentifier` attribute is readable. -/
def extract_document_info (modelDocumentType : Option String)
    (contexts : List (String × ContextIn)) : DocumentInfoOut :=
  { document_type := modelDocumentType
    entity :=
      match contexts.head? with
      | some (_, ctx) =>
        match ctx.entityIdentifier with
        | some (scheme, ident) => some { identifier := ident, scheme := scheme }
        | none => none
      | none => none }

/-- The period classification shared by `_extract_contexts` and
`_extract_facts` (`isInstantPeriod` / `isStartEndPeriod` /
`isForeverPeriod`, an empty dictionary otherwise). -/
def mkPeriodOut (ctx : ContextIn) : PeriodOut :=
  match ctx.periodKind with
  | .instantK => .instantP ctx.instantDatetime
  | .startEndK => .durationP ctx.startDatetime ctx.endDatetime
  | .foreverK => .foreverP
  | .noneK => .emptyP

/-- One dimension record of the context path: the entry is kept even when
the key or value is `None` (`str` renders `None` as `"None"`; failing
`hasattr` probes on `None` classify it as typed with no `value` key). -/
def mkCtxDim (e : Option QNameIn × Option DimValIn) : CtxDimOut :=
  match e with
  | (k, v) =>
    { dimension := pyStrQ k
      dimType :=
        match v with
        | some dv => if dv.memberQname.isSome then "explicit" else "typed"
        | none => "typed"
      value :=
        match v with
        | some dv =>
          match dv.memberQname with
          | some mq => some (pyStrQ mq)
          | none =>
            match dv.typedMemberStr with
            | some t => some t
            | none => none
        | none => none }

/-- The dimension list collected by `_extract_contexts` for one context. -/
def contextDims (ctx : ContextIn) : List CtxDimOut :=
  match ctx.qnameDims with
  | some l => if l.isEmpty then [] else l.map mkCtxDim
  | none => []

/-- The body of the `_extract_contexts` loop for one `(id, context)` pair:
the unguarded `context.entityIdentifier` access raises (aborting the whole
extraction) when the attribute is unreadable. -/
def processContext (e : String × ContextIn) : Except String ContextOut :=
  match e with
  | (cid, ctx) =>
    match ctx.entityIdentifier with
    | none => .error "AttributeError: entityIdentifier"
    | some (scheme, ident) =>
      .ok
        { id := cid
          entity := { identifier := ident, scheme := scheme }
          period := mkPeriodOut ctx
          dimensions :=
            let dims := contextDims ctx
            if dims.isEmpty then none else some dims }

/-- Model of `_extract_contexts`: the loop accumulates one record per context and the
exception raised for an unreadable entity identifier propagates out of the
loop at the first offender. -/
def extract_contexts : List (String × ContextIn) →
    Except String (List ContextOut)
  | [] => .ok []
  | e :: rest =>
    match processContext e with
    | .error msg => .error msg
    | .ok c =>
      match extract_contexts rest with
      | .error msg => .error msg
      | .ok cs => .ok (c :: cs)

/-- The body of the `_extract_units` loop for one `(id, unit)` pair: a unit
is a divide unit iff its measure tuple has exactly two parts and the second
part is non-empty, otherwise it is simple. -/
def processUnit (e : String × UnitIn) : UnitOut :=
  match e with
  | (uid, u) =>
    if u.measures.length = 2 ∧ u.measures.getD 1 [] ≠ [] then
      let num := u.measures.getD 0 []
      let den := u.measures.getD 1 []
      { id := uid
        unit_type := "divide"
        measures := none
        measure := none
        numerator := some num
        denominator := some den
        numerator_measure := some num.head?
        denominator_measure := some den.head? }
    else
      let num := u.measures.headD []
      { id := uid
        unit_type := "simple"
        measures := some num
        measure := some num.head?
        numerator := none
        denominator := none
        numerator_measure := none
        denominator_measure := none }

/-- Model of `_extract_units`. -/
def extract_units (units : List (String × UnitIn)) : List UnitOut :=
  units.map processUnit

/-- One dimension record of the fact path: entries with a `None` key or
value are skipped; an explicit member carries `member`/`member_name` and a
best-effort `member_label`, a typed member carries `value`. -/
def mkFactDim (e : Option QNameIn × Option DimValIn) : Option FactDimOut :=
  match e with
  | (none, _) => none
  | (_, none) => none
  | (some k, some dv) =>
    let base : FactDimOut :=
      { axis := k.qstr
        axis_name := k.localName
        dimType := if dv.memberQname.isSome then "explicit" else "typed"
        member := none
        member_name := none
        member_label := none
        value := none }
    match dv.memberQname with
    | some (some mq) =>
      some
        { base with
          member := some mq.qstr
          member_name := some mq.localName
          member_label :=
            match dv.memberLabel with
            | some s => if s = "" then none else some s
            | none => none }
    | _ =>
      match dv.typedMemberStr with
      | some t => some { base with value := some t }
      | none => some base

/-- The dimension list collected by `_extract_facts` for one context. -/
def factDims (ctx : ContextIn) : List FactDimOut :=
  match ctx.qnameDims with
  | some l => if l.isEmpty then [] else l.filterMap mkFactDim
  | none => []

/-- The label block of `_extract_facts`: returns the `(label, terse_label)`
key contents.  A raising standard-label call (`none`) skips the whole block;
a raising terse-label call keeps the already-set standard label; the terse
label is kept only when truthy and different (as a raw Python value) from
the raw standard label. -/
def factLabels (unescape : String → String) (c : ConceptRefIn) :
    Option String × Option String :=
  match c.standardLabel with
  | none => (none, none)
  | some slRaw =>
    let lbl : Option String :=
      match slRaw with
      | some s => if s = "" then none else some (unescape s)
      | none => none
    match c.terseLabel with
    | none => (lbl, none)
    | some tlRaw =>
      let terse : Option String :=
        match tlRaw with
        | some t =>
          if t ≠ "" ∧ some t ≠ slRaw then some (unescape t) else none
        | none => none
      (lbl, terse)

/-- The body of the `_extract_facts` loop for one fact: every fact yields a
record; all context-, concept- and source-derived enrichments are
best-effort. -/
def processFact (unescape : String → String) (f : FactIn) : FactOut :=
  let labels :=
    match f.concept with
    | some c => factLabels unescape c
    | none => (none, none)
  { concept := f.qname.qstr
    concept_name := f.qname.localName
    context_ref := f.contextID
    value := f.value.map (strip_html unescape)
    unit_ref := pyStrOpt f.unitID
    period := f.context.map mkPeriodOut
    entity_scheme :=
      match f.context with
      | some ctx => ctx.entityIdentifier.map (fun p => p.1)
      | none => none
    entity_identifier :=
      match f.context with
      | some ctx => ctx.entityIdentifier.map (fun p => p.2)
      | none => none
    dimensions :=
      match f.context with
      | some ctx =>
        let dims := factDims ctx
        if dims.isEmpty then none else some dims
      | none => none
    label := labels.1
    terse_label := labels.2
    is_numeric := f.isNumeric
    decimals := if f.isNumeric then some f.decimals else none
    precision := if f.isNumeric then some f.precision else none
    data_type :=
      match f.concept with
      | some c => c.typeQname
      | none => none
    html_anchor_id := pyStrOpt f.factId
    source_line :=
      match f.sourceline with
      | some n => if n = 0 then none else some n
      | none => none
    source_file := f.docBasename }

/-- Model of `_extract_facts`. -/
def extract_facts (unescape : String → String) (facts : List FactIn) :
    List FactOut :=
  facts.map (processFact unescape)

/-- A truthy resolved label is HTML-entity-decoded and stored; anything else
leaves the key at its initialized `None`. -/
def conceptLabelField (unescape : String → String) (o : Option String) :
    Option String :=
  match o with
  | some s => if s = "" then none else some (unescape s)
  | none => none

/-- The body of the `_extract_concepts` loop for one
`(qname, concept)` pair (its `try/except` wrappers guard only operations
that are total in the model). -/
def processTaxConcept (unescape : String → String)
    (e : QNameIn × TaxConceptIn) : ConceptOut :=
  match e with
  | (q, c) =>
    { qname := q.qstr
      local_name := q.localName
      namespace_uri := q.nsURI
      pfx := q.pfx
      standard_label := conceptLabelField unescape c.standardLabel
      terse_label := conceptLabelField unescape c.terseLabel
      verbose_label := conceptLabelField unescape c.verboseLabel
      docText := conceptLabelField unescape c.docLabel
      data_type := c.typeQname
      base_xsd_type := pyStrOpt c.baseXsdType
      is_numeric := c.isNumeric.getD false
      is_monetary := c.isMonetary.getD false
      balance := c.balance
      period_type := c.periodType
      is_abstract := c.isAbstract.getD false
      substitution_group := c.substitutionGroupQname }

/-- Model of `_extract_concepts`. -/
def extract_concepts (unescape : String → String)
    (qnameConcepts : List (QNameIn × TaxConceptIn)) : List ConceptOut :=
  qnameConcepts.map (processTaxConcept unescape)

/-- Model of `_extract_labels`: for every concept, record each concept-label
relationship whose resource exists and has truthy text. -/
def extract_labels (unescape : String → String)
    (qnameConcepts : List (QNameIn × TaxConceptIn)) : List LabelOut :=
  (qnameConcepts.map (fun e =>
    e.2.labelRels.filterMap (fun r =>
      match r with
      | none => none
      | some res =>
        match res.text with
        | some t =>
          if t = "" then none
          else
            some
              { concept_qname := e.1.qstr
                label_role := res.role
                label_text := strip_html unescape t
                language := pyOrD res.xmlLang "en-US" }
        | none => none))).flatten

/-- The per-role body of the `_extract_statement_roles` loop, iterated over
the sorted active role URIs with a display-order accumulator that advances
only when a record is emitted.  A role whose lowercased URI contains
`"parenthetical"` is skipped; the statement type is
`mappings.get(role_uri, "Unclassified")`; the statement name is the
truthiness chain `label or definition or role_uri`. -/
def rolesLoop (mappings : List (String × String))
    (roleTypes : List (String × List RoleTypeIn)) :
    List String → Nat → List StatementRoleOut
  | [], _ => []
  | roleUri :: rest, displayOrder =>
    let rts := (roleTypes.lookup roleUri).getD []
    let definition :=
      match rts.head? with
      | some rt => rt.definition
      | none => none
    let label :=
      match rts.head? with
      | some rt => rt.genLabel
      | none => none
    if listContainsSub "parenthetical".data (pyLower roleUri).data then
      rolesLoop mappings roleTypes rest displayOrder
    else
      { role_uri := roleUri
        statement_type := (mappings.lookup roleUri).getD "Unclassified"
        statement_name := pyOrD label (pyOrD definition roleUri)
        display_order := displayOrder } ::
        rolesLoop mappings roleTypes rest (displayOrder + 1)

/-- Model of `_extract_statement_roles`: the active roles are the link roles carrying
at least one presentation relationship, visited in sorted order.  The
`mappings` parameter is the dictionary returned by
`load_statement_type_mappings()` (the description-to-type dictionary of
the seed file). -/
def extract_statement_roles (mappings : List (String × String))
    (roleTypes : List (String × List RoleTypeIn))
    (presRels : List PresEdge) : List StatementRoleOut :=
  rolesLoop mappings roleTypes
    (sortStrings ((presRels.map (fun r => r.linkrole)).dedup)) 1

/-- Model of `_generate_summary`: totals plus the sorted set of namespace prefixes
observed across facts (a fact contributes its prefix when both its
namespace URI and its prefix are truthy). -/
def generate_summary (facts : List FactIn) (nContexts nUnits : Nat) :
    SummaryOut :=
  let prefixes := facts.filterMap (fun f =>
    match f.qname.nsURI with
    | some ns =>
      if ns = "" then none
      else
        match f.qname.pfx with
        | some p => if p = "" then none else some p
        | none => none
    | none => none)
  { total_facts := facts.length
    total_contexts := nContexts
    total_units := nUnits
    namespaces := sortStrings prefixes.dedup }

/-- The per-relationship body of `_extract_calculation_relationships`: a
relationship whose endpoint resolution raises is skipped by its handler. -/
def processCalcRel (e : CalcEdgeIn) : Option CalcRelOut :=
  match e.fromQ, e.toQ with
  | some f, some t =>
    some
      { total_concept := f
        component_concept := t
        weight := pyNumOpt e.weight
        order := pyNumOpt e.order
        role_uri := e.linkrole
        priority := e.priority }
  | _, _ => none

/-- Model of `_extract_calculation_relationships`: merge the Calculations 1.0 edges
with the 1.1 edges (when the running `XbrlConst` exposes
`summationItem11`). -/
def extract_calculation_relationships (calcRels : List CalcEdgeIn)
    (calcRels11 : Option (List CalcEdgeIn)) : List CalcRelOut :=
  (calcRels ++ calcRels11.getD []).filterMap processCalcRel

/-- The per-relationship body of the flat definition-arcrole loop:
`typeName` is the relationship-type label of the arcrole; `is_closed` is
captured only for `all`/`notAll`. -/
def processDefRel (typeName : String) (e : DefEdgeIn) : Option DefRelOut :=
  match e.fromQ, e.toQ with
  | some f, some t =>
    some
      { from_concept := f
        to_concept := t
        relationship_type := typeName
        role_uri := e.linkrole
        order := pyNumOpt e.order
        priority := e.priority
        is_closed :=
          if typeName = "all" ∨ typeName = "notAll" then
            match e.closedA with
            | some v => some (pyStrOpt v)
            | none => none
          else none
        depth := none }
  | _, _ => none

/-! ## The hierarchical traversals

`_traverse_presentation_tree` and `_traverse_domain_member_tree` are
depth-first recursions over the relationship set.  The concept key for
cycle detection is `str(concept.qname)`; the mutable Python set `visited`
with per-recursive-call `visited.copy()` is modelled by consing the current
key onto an immutable list before recursing.  Termination (the substance of
the cycle check in the source) is justified by the number of not-yet-visited
from-endpoints. -/

/-- The from-endpoints of a presentation relationship set. -/
def presNodes (relSet : List PresEdge) : List String :=
  relSet.map (fun r => r.fromQ)

/-- The from-endpoints of a domain-member relationship set. -/
def dmNodes (relSet : List DMEdge) : List String :=
  relSet.map (fun r => r.fromQ)

/-- How many of `nodes` are not yet in `visited` (termination measure). -/
def unvisitedCount (nodes visited : List String) : Nat :=
  (nodes.filter (fun n => decide (n ∉ visited))).length

theorem unvisitedCount_cons_lt {nodes visited : List String} {c : String}
    (hc : c ∈ nodes) (hv : c ∉ visited) :
    unvisitedCount nodes (c :: visited) < unvisitedCount nodes visited := by
  unfold unvisitedCount
  have h1 : nodes.filter (fun n => decide (n ∉ c :: visited)) =
      (nodes.filter (fun n => decide (n ∉ visited))).filter
        (fun n => decide (¬n = c)) := by
    rw [List.filter_filter]
    apply List.filter_congr
    intro x _
    simp [List.mem_cons, not_or]
  rw [h1]
  apply List.length_filter_lt_length_iff_exists.mpr
  exact ⟨c, List.mem_filter.mpr ⟨hc, by simp [hv]⟩, by simp⟩

/-- The relationship record appended for one presentation child edge. -/
def presRelRecord (conceptKey : String) (e : PresEdge) (depth : Nat) :
    PresRelOut :=
  { parent_concept := conceptKey
    child_concept := e.toQ
    depth := depth + 1
    order := pyNumOpt e.order
    preferred_label_role := e.preferredLabel
    role_uri := e.linkrole
    priority := e.priority }

/-- Model of `_traverse_presentation_tree`: return `[]` when the current concept is
already on this path; otherwise record the edge to every child and recurse
into it with the extended path. -/
def traverse_presentation_tree (relSet : List PresEdge) (conceptKey : String)
    (depth : Nat) (visited : List String) : List PresRelOut :=
  if conceptKey ∈ visited then []
  else
    let childRels := relSet.filter (fun r => r.fromQ == conceptKey)
    (childRels.attach.map (fun c =>
      presRelRecord conceptKey c.1 depth ::
        traverse_presentation_tree relSet c.1.toQ (depth + 1)
          (conceptKey :: visited))).flatten
termination_by unvisitedCount (presNodes relSet) visited
decreasing_by
  have hm := List.mem_filter.mp c.2
  have hfrom : c.1.fromQ = conceptKey := by simpa using hm.2
  exact unvisitedCount_cons_lt (List.mem_map.mpr ⟨c.1, hm.1, hfrom⟩)
    (by assumption)

/-- The relationship record appended for one domain-member child edge. -/
def dmRelRecord (conceptKey : String) (e : DMEdge) (roleUri : String)
    (depth : Nat) : DefRelOut :=
  { from_concept := conceptKey
    to_concept := e.toQ
    relationship_type := "domain-member"
    role_uri := some roleUri
    order := pyNumOpt e.order
    priority := e.priority
    is_closed := none
    depth := some (depth + 1) }

/-- Model of `_traverse_domain_member_tree`: as the presentation traversal, but the
loop skips children whose link role differs from the role being walked
(modelled by filtering on both conditions at once). -/
def traverse_domain_member_tree (relSet : List DMEdge)
    (conceptKey roleUri : String) (depth : Nat) (visited : List String) :
    List DefRelOut :=
  if conceptKey ∈ visited then []
  else
    let childRels := relSet.filter
      (fun r => r.fromQ == conceptKey && r.linkrole == roleUri)
    (childRels.attach.map (fun c =>
      dmRelRecord conceptKey c.1 roleUri depth ::
        traverse_domain_member_tree relSet c.1.toQ roleUri (depth + 1)
          (conceptKey :: visited))).flatten
termination_by unvisitedCount (dmNodes relSet) visited
decreasing_by
  have hm := List.mem_filter.mp c.2
  have hfrom : c.1.fromQ = conceptKey := by
    have := hm.2
    simp at this
    exact this.1
  exact unvisitedCount_cons_lt (List.mem_map.mpr ⟨c.1, hm.1, hfrom⟩)
    (by assumption)

/-- Model of `_extract_presentation_relationships`: walk each provider root at depth
0 with a fresh path. -/
def extract_presentation_relationships (presRels : List PresEdge)
    (presRoots : Option (List String)) : List PresRelOut :=
  ((presRoots.getD []).map
    (fun root => traverse_presentation_tree presRels root 0 [])).flatten

/-- Model of `_extract_definition_relationships`: the five flat arcrole lists in
source order, then the domain-member hierarchies — one walk per distinct
link role observed on the outgoing edges of each root (a Python set, modelled in
first-occurrence order). -/
def extract_definition_relationships
    (allRels notAllRels hcdRels ddRels ddefRels : List DefEdgeIn)
    (dmRels : List DMEdge) (dmRoots : Option (List String)) :
    List DefRelOut :=
  let flat :=
    allRels.filterMap (processDefRel "all") ++
    notAllRels.filterMap (processDefRel "notAll") ++
    hcdRels.filterMap (processDefRel "hypercube-dimension") ++
    ddRels.filterMap (processDefRel "dimension-domain") ++
    ddefRels.filterMap (processDefRel "dimension-default")
  let dm := ((dmRoots.getD []).map (fun root =>
    let rootRoles :=
      ((dmRels.filter (fun r => r.fromQ == root)).map
        (fun r => r.linkrole)).dedup
    (rootRoles.map (fun roleUri =>
      traverse_domain_member_tree dmRels root roleUri 0 [])).flatten)).flatten
  flat ++ dm

/-! ### Step-indexed traversals

The Python recursions run on the call stack; the step-indexed variants below
make the consumed stack depth explicit (`none` = the stack budget ran out),
so that termination of the source recursion is the statement that a finite
budget suffices. -/

/-- Sequence a list of `Option` computations (children results). -/
def optionTraverse (f : α → Option β) : List α → Option (List β)
  | [] => some []
  | a :: l =>
    match f a with
    | none => none
    | some b =>
      match optionTraverse f l with
      | none => none
      | some bs => some (b :: bs)

theorem optionTraverse_eq_map (f : α → Option β) (g : α → β)
    (l : List α) (h : ∀ a ∈ l, f a = some (g a)) :
    optionTraverse f l = some (l.map g) := by
  induction l with
  | nil => rfl
  | cons a l ih =>
    have h1 := h a (List.mem_cons_self a l)
    have h2 := ih (fun b hb => h b (List.mem_cons_of_mem a hb))
    simp [optionTraverse, h1, h2]

/-- Model of `_traverse_presentation_tree` with an explicit stack budget. -/
def traverse_presentation_fuel : Nat → List PresEdge → String → Nat →
    List String → Option (List PresRelOut)
  | 0, _, _, _, _ => none
  | fuel + 1, relSet, conceptKey, depth, visited =>
    if conceptKey ∈ visited then some []
    else
      let childRels := relSet.filter (fun r => r.fromQ == conceptKey)
      (optionTraverse (fun e =>
        (traverse_presentation_fuel fuel relSet e.toQ (depth + 1)
            (conceptKey :: visited)).map
          (fun sub => presRelRecord conceptKey e depth :: sub))
        childRels).map List.flatten

/-- Model of `_traverse_domain_member_tree` with an explicit stack budget. -/
def traverse_domain_member_fuel : Nat → List DMEdge → String → String →
    Nat → List String → Option (List DefRelOut)
  | 0, _, _, _, _, _ => none
  | fuel + 1, relSet, conceptKey, roleUri, depth, visited =>
    if conceptKey ∈ visited then some []
    else
      let childRels := relSet.filter
        (fun r => r.fromQ == conceptKey && r.linkrole == roleUri)
      (optionTraverse (fun e =>
        (traverse_domain_member_fuel fuel relSet e.toQ roleUri (depth + 1)
            (conceptKey :: visited)).map
          (fun sub => dmRelRecord conceptKey e roleUri depth :: sub))
        childRels).map List.flatten

/-- Any stack budget exceeding the number of unvisited from-endpoints makes
the step-indexed presentation traversal compute the result of the recursion. -/
theorem traverse_presentation_fuel_eq :
    ∀ (fuel : Nat) (relSet : List PresEdge) (c : String) (d : Nat)
      (v : List String), unvisitedCount (presNodes relSet) v < fuel →
      traverse_presentation_fuel fuel relSet c d v =
        some (traverse_presentation_tree relSet c d v) := by
  intro fuel
  induction fuel with
  | zero => intro _ _ _ _ h; omega
  | succ k ih =>
    intro relSet c d v h
    rw [traverse_presentation_fuel, traverse_presentation_tree]
    by_cases hv : c ∈ v
    · simp [hv]
    · simp only [if_neg hv]
      rw [optionTraverse_eq_map
        (fun e => (traverse_presentation_fuel k relSet e.toQ (d + 1)
            (c :: v)).map (fun sub => presRelRecord c e d :: sub))
        (fun e => presRelRecord c e d ::
          traverse_presentation_tree relSet e.toQ (d + 1) (c :: v))
        (relSet.filter (fun r => r.fromQ == c)) ?_]
      · have hmap := List.attach_map_val
          (relSet.filter (fun r => r.fromQ == c))
          (fun e => presRelRecord c e d ::
            traverse_presentation_tree relSet e.toQ (d + 1) (c :: v))
        exact congrArg some (congrArg List.flatten hmap.symm)
      · intro e he
        have hfrom : e.fromQ = c := by
          have := (List.mem_filter.mp he).2
          simpa using this
        have hcn : c ∈ presNodes relSet :=
          List.mem_map.mpr ⟨e, (List.mem_filter.mp he).1, hfrom⟩
        have hlt : unvisitedCount (presNodes relSet) (c :: v) < k := by
          have := unvisitedCount_cons_lt hcn hv
          omega
        have hrec := ih relSet e.toQ (d + 1) (c :: v) hlt
        simp [hrec]

/-- Any stack budget exceeding the number of unvisited from-endpoints makes
the step-indexed domain-member traversal compute the result of the recursion. -/
theorem traverse_domain_member_fuel_eq :
    ∀ (fuel : Nat) (relSet : List DMEdge) (c roleUri : String) (d : Nat)
      (v : List String), unvisitedCount (dmNodes relSet) v < fuel →
      traverse_domain_member_fuel fuel relSet c roleUri d v =
        some (traverse_domain_member_tree relSet c roleUri d v) := by
  intro fuel
  induction fuel with
  | zero => intro _ _ _ _ _ h; omega
  | succ k ih =>
    intro relSet c roleUri d v h
    rw [traverse_domain_member_fuel, traverse_domain_member_tree]
    by_cases hv : c ∈ v
    · simp [hv]
    · simp only [if_neg hv]
      rw [optionTraverse_eq_map
        (fun e => (traverse_domain_member_fuel k relSet e.toQ roleUri
            (d + 1) (c :: v)).map
          (fun sub => dmRelRecord c e roleUri d :: sub))
        (fun e => dmRelRecord c e roleUri d ::
          traverse_domain_member_tree relSet e.toQ roleUri (d + 1)
            (c :: v))
        (relSet.filter (fun r => r.fromQ == c && r.linkrole == roleUri)) ?_]
      · have hmap := List.attach_map_val
          (relSet.filter (fun r => r.fromQ == c && r.linkrole == roleUri))
          (fun e => dmRelRecord c e roleUri d ::
            traverse_domain_member_tree relSet e.toQ roleUri (d + 1)
              (c :: v))
        exact congrArg some (congrArg List.flatten hmap.symm)
      · intro e he
        have hfrom : e.fromQ = c := by
          have := (List.mem_filter.mp he).2
          simp at this
          exact this.1
        have hcn : c ∈ dmNodes relSet :=
          List.mem_map.mpr ⟨e, (List.mem_filter.mp he).1, hfrom⟩
        have hlt : unvisitedCount (dmNodes relSet) (c :: v) < k := by
          have := unvisitedCount_cons_lt hcn hv
          omega
        have hrec := ih relSet e.toQ roleUri (d + 1) (c :: v) hlt
        simp [hrec]

/-! ## The aggregator -/

/-- Model of `_extract_all_data`, with the result-dictionary values evaluated in
source order.  Only the contexts pass can raise (and the exception
propagates out of `parse_xbrl_from_url` after logging); every other pass is
total.  `mappings` is the seed dictionary read by
`load_statement_type_mappings()` inside `_extract_statement_roles`. -/
def extract_all_data (unescape : String → String)
    (mappings : List (String × String)) (m : ModelXbrlIn) :
    Except String DocumentOut :=
  let document_info := extract_document_info m.modelDocumentType m.contexts
  match extract_contexts m.contexts with
  | .error msg => .error msg
  | .ok contexts =>
  let units := extract_units m.units
  let facts := extract_facts unescape m.facts
  let concepts := extract_concepts unescape m.qnameConcepts
  let labels := extract_labels unescape m.qnameConcepts
  let statement_roles := extract_statement_roles mappings m.roleTypes m.presRels
  let presentation_relationships :=
    extract_presentation_relationships m.presRels m.presRoots
  let calculation_relationships :=
    extract_calculation_relationships m.calcRels m.calcRels11
  let definition_relationships :=
    extract_definition_relationships m.allRels m.notAllRels
      m.hypercubeDimensionRels m.dimensionDomainRels m.dimensionDefaultRels
      m.domainMemberRels m.domainMemberRoots
  let summary := generate_summary m.facts m.contexts.length m.units.length
  .ok
    { document_info := document_info
      contexts := contexts
      units := units
      facts := facts
      concepts := concepts
      labels := labels
      statement_roles := statement_roles
      presentation_relationships := presentation_relationships
      calculation_relationships := calculation_relationships
      definition_relationships := definition_relationships
      summary := summary }

/-! ## Helper lemmas about the traversal -/

/-- Expanding a node already on the current path contributes no edges. -/
theorem traverse_pres_visited {relSet : List PresEdge} {conceptKey : String}
    {depth : Nat} {visited : List String} (h : conceptKey ∈ visited) :
    traverse_presentation_tree relSet conceptKey depth visited = [] := by
  rw [traverse_presentation_tree]
  simp [h]

/-- When an unvisited node is expanded, the edge to each of its children is
recorded — whether or not the child is already on the path. -/
theorem traverse_pres_child_edge_mem {relSet : List PresEdge}
    {conceptKey : String} {depth : Nat} {visited : List String} {e : PresEdge}
    (hnv : conceptKey ∉ visited) (he : e ∈ relSet)
    (hf : e.fromQ = conceptKey) :
    presRelRecord conceptKey e depth ∈
      traverse_presentation_tree relSet conceptKey depth visited := by
  rw [traverse_presentation_tree]
  simp only [if_neg hnv]
  apply List.mem_flatten.mpr
  have hef : e ∈ relSet.filter (fun r => r.fromQ == conceptKey) :=
    List.mem_filter.mpr ⟨he, by simp [hf]⟩
  refine ⟨presRelRecord conceptKey e depth ::
    traverse_presentation_tree relSet e.toQ (depth + 1)
      (conceptKey :: visited), ?_, List.mem_cons_self _ _⟩
  exact List.mem_map.mpr ⟨⟨e, hef⟩, List.mem_attach _ _, rfl⟩

/-- Everything recorded while recursing into a child is part of the result
of the parent. -/
theorem traverse_pres_subtree_mem {relSet : List PresEdge}
    {conceptKey : String} {depth : Nat} {visited : List String} {e : PresEdge}
    {x : PresRelOut} (hnv : conceptKey ∉ visited) (he : e ∈ relSet)
    (hf : e.fromQ = conceptKey)
    (hx : x ∈ traverse_presentation_tree relSet e.toQ (depth + 1)
      (conceptKey :: visited)) :
    x ∈ traverse_presentation_tree relSet conceptKey depth visited := by
  rw [traverse_presentation_tree]
  simp only [if_neg hnv]
  apply List.mem_flatten.mpr
  have hef : e ∈ relSet.filter (fun r => r.fromQ == conceptKey) :=
    List.mem_filter.mpr ⟨he, by simp [hf]⟩
  refine ⟨presRelRecord conceptKey e depth ::
    traverse_presentation_tree relSet e.toQ (depth + 1)
      (conceptKey :: visited), ?_, List.mem_cons_of_mem _ hx⟩
  exact List.mem_map.mpr ⟨⟨e, hef⟩, List.mem_attach _ _, rfl⟩


/-! ## Claims -/

/-- A presentation edge with only the endpoints and link role populated, as
used in the concrete scenarios below. -/
def presEdge0 (f t lr : String) : PresEdge :=
  { fromQ := f, toQ := t, order := none, preferredLabel := none,
    linkrole := lr, priority := none }

/-- The presentation-relationship record such an edge produces. -/
def presRec0 (p ch lr : String) (dep : Nat) : PresRelOut :=
  { parent_concept := p, child_concept := ch, depth := dep, order := none,
    preferred_label_role := none, role_uri := lr, priority := none }

/-- C1: the classification scenario of the spec, evaluated on the code.  With the
active role URI `"http://x/role/BalanceSheet"`, definition
`"000020 - Statement - Consolidated Balance Sheets"` and the seed mapping
`{"Consolidated Balance Sheets": "Balance Sheet"}`,
`_extract_statement_roles` emits statement type `"Unclassified"` — it keys
the description-keyed mapping by the role URI — even though the definition
parses to category `"Statement"` and description
`"Consolidated Balance Sheets"`, and that description is mapped to
`"Balance Sheet"`. -/
theorem c1_statement_type_keyed_by_uri :
    extract_statement_roles [("Consolidated Balance Sheets", "Balance Sheet")]
      [("http://x/role/BalanceSheet",
        [{ definition := some "000020 - Statement - Consolidated Balance Sheets",
           genLabel := none }])]
      [presEdge0 "us-gaap:Assets" "us-gaap:AssetsCurrent"
        "http://x/role/BalanceSheet"] =
      [{ role_uri := "http://x/role/BalanceSheet",
         statement_type := "Unclassified",
         statement_name := "000020 - Statement - Consolidated Balance Sheets",
         display_order := 1 }] ∧
    parse_role_definition "000020 - Statement - Consolidated Balance Sheets" =
      some ("Statement", "Consolidated Balance Sheets") ∧
    List.lookup "Consolidated Balance Sheets"
      [("Consolidated Balance Sheets", "Balance Sheet")] =
      some "Balance Sheet" :=
  ⟨by decide, by decide, by decide⟩

/-- C3 counterexample: in the rooted graph `R → A → B → A` (a true cycle),
the back-edge `B → A` that closes the cycle IS recorded in the output
relationship list, contradicting the claim that it is skipped rather than
emitted. -/
theorem c3_counterexample_back_edge_recorded :
    extract_presentation_relationships
      [presEdge0 "R" "A" "http://x/role/S", presEdge0 "A" "B" "http://x/role/S",
       presEdge0 "B" "A" "http://x/role/S"] (some ["R"]) =
      [presRec0 "R" "A" "http://x/role/S" 1,
       presRec0 "A" "B" "http://x/role/S" 2,
       presRec0 "B" "A" "http://x/role/S" 3] := by
  have ha := traverse_presentation_fuel_eq 4
    [presEdge0 "R" "A" "http://x/role/S", presEdge0 "A" "B" "http://x/role/S",
     presEdge0 "B" "A" "http://x/role/S"] "R" 0 [] (by decide)
  have hb : traverse_presentation_fuel 4
      [presEdge0 "R" "A" "http://x/role/S",
       presEdge0 "A" "B" "http://x/role/S",
       presEdge0 "B" "A" "http://x/role/S"] "R" 0 [] =
      some [presRec0 "R" "A" "http://x/role/S" 1,
        presRec0 "A" "B" "http://x/role/S" 2,
        presRec0 "B" "A" "http://x/role/S" 3] := by decide
  have h1 := Option.some.inj (ha.symm.trans hb)
  simp [extract_presentation_relationships, h1]

/-- C3 (amended): the traversal terminates at a cycle without re-expanding
the repeated concept — descending into a child already on the path
contributes no further edges — but the edge into that child is still
recorded: every child edge of an expanded node is emitted, whether or not
the child is on the path. -/
theorem c3_cycle_edge_recorded_descent_skipped :
    (∀ (relSet : List PresEdge) (conceptKey : String) (depth : Nat)
        (visited : List String), conceptKey ∈ visited →
        traverse_presentation_tree relSet conceptKey depth visited = []) ∧
    (∀ (relSet : List PresEdge) (conceptKey : String) (depth : Nat)
        (visited : List String) (e : PresEdge), conceptKey ∉ visited →
        e ∈ relSet → e.fromQ = conceptKey →
        presRelRecord conceptKey e depth ∈
          traverse_presentation_tree relSet conceptKey depth visited) :=
  ⟨fun _ _ _ _ h => traverse_pres_visited h,
   fun _ _ _ _ _ hnv he hf => traverse_pres_child_edge_mem hnv he hf⟩

/-- C3 (amended) witness: on the cycle `A → B → A`, expanding the visited
concept `A` yields nothing, while the back-edge from the expanded concept
`B` into the visited concept `A` is still recorded. -/
theorem c3_cycle_edge_recorded_descent_skipped_witness :
    traverse_presentation_tree
      [presEdge0 "A" "B" "r", presEdge0 "B" "A" "r"] "A" 2 ["B", "A"] = [] ∧
    presRelRecord "B" (presEdge0 "B" "A" "r") 1 ∈
      traverse_presentation_tree
        [presEdge0 "A" "B" "r", presEdge0 "B" "A" "r"] "B" 1 ["A"] :=
  ⟨c3_cycle_edge_recorded_descent_skipped.1 _ "A" 2 ["B", "A"] (by decide),
   c3_cycle_edge_recorded_descent_skipped.2 _ "B" 1 ["A"] _ (by decide)
     (by decide) (by decide)⟩

/-- C7: each recursive call receives its own copy of the visited set, so in
the diamond `a → b`, `a → c`, `b → d`, `c → d` (with `b`, `c` distinct and
distinct from the root `a`) the traversal records the edge into `d` once on
each of the two paths: both the `b → d` record and the `c → d` record are
in the output, and they are distinct records. -/
theorem c7_diamond_records_both_paths (a b c d lr : String)
    (hba : b ≠ a) (hca : c ≠ a) (hbc : b ≠ c) :
    presRelRecord b (presEdge0 b d lr) 1 ∈
      traverse_presentation_tree
        [presEdge0 a b lr, presEdge0 a c lr,
         presEdge0 b d lr, presEdge0 c d lr] a 0 [] ∧
    presRelRecord c (presEdge0 c d lr) 1 ∈
      traverse_presentation_tree
        [presEdge0 a b lr, presEdge0 a c lr,
         presEdge0 b d lr, presEdge0 c d lr] a 0 [] ∧
    presRelRecord b (presEdge0 b d lr) 1 ≠
      presRelRecord c (presEdge0 c d lr) 1 := by
  have hmemB : presRelRecord b (presEdge0 b d lr) 1 ∈
      traverse_presentation_tree
        [presEdge0 a b lr, presEdge0 a c lr,
         presEdge0 b d lr, presEdge0 c d lr] b 1 [a] := by
    refine traverse_pres_child_edge_mem ?_ ?_ ?_
    · simp [hba]
    · simp
    · rfl
  have hmemC : presRelRecord c (presEdge0 c d lr) 1 ∈
      traverse_presentation_tree
        [presEdge0 a b lr, presEdge0 a c lr,
         presEdge0 b d lr, presEdge0 c d lr] c 1 [a] := by
    refine traverse_pres_child_edge_mem ?_ ?_ ?_
    · simp [hca]
    · simp
    · rfl
  refine ⟨?_, ?_, ?_⟩
  · exact @traverse_pres_subtree_mem
      [presEdge0 a b lr, presEdge0 a c lr, presEdge0 b d lr, presEdge0 c d lr]
      a 0 [] (presEdge0 a b lr) (presRelRecord b (presEdge0 b d lr) 1)
      (List.not_mem_nil a) (by simp) rfl hmemB
  · exact @traverse_pres_subtree_mem
      [presEdge0 a b lr, presEdge0 a c lr, presEdge0 b d lr, presEdge0 c d lr]
      a 0 [] (presEdge0 a c lr) (presRelRecord c (presEdge0 c d lr) 1)
      (List.not_mem_nil a) (by simp) rfl hmemC
  · intro hEq
    exact hbc (congrArg PresRelOut.parent_concept hEq)

/-- C7 witness: the diamond with concrete concepts `A`, `B`, `C`, `D`. -/
theorem c7_diamond_records_both_paths_witness :
    presRelRecord "B" (presEdge0 "B" "D" "r") 1 ∈
      traverse_presentation_tree
        [presEdge0 "A" "B" "r", presEdge0 "A" "C" "r",
         presEdge0 "B" "D" "r", presEdge0 "C" "D" "r"] "A" 0 [] ∧
    presRelRecord "C" (presEdge0 "C" "D" "r") 1 ∈
      traverse_presentation_tree
        [presEdge0 "A" "B" "r", presEdge0 "A" "C" "r",
         presEdge0 "B" "D" "r", presEdge0 "C" "D" "r"] "A" 0 [] :=
  ⟨(c7_diamond_records_both_paths "A" "B" "C" "D" "r" (by decide) (by decide)
      (by decide)).1,
   (c7_diamond_records_both_paths "A" "B" "C" "D" "r" (by decide) (by decide)
      (by decide)).2.1⟩

/-! ### C4: which roles are returned -/

theorem mem_insertSorted {x s : String} {l : List String} :
    x ∈ insertSorted s l ↔ x = s ∨ x ∈ l := by
  induction l with
  | nil => simp [insertSorted]
  | cons t ts ih =>
    rw [insertSorted]
    split
    · simp [List.mem_cons]
    · simp only [List.mem_cons, ih]
      tauto

theorem mem_sortStrings {x : String} {l : List String} :
    x ∈ sortStrings l ↔ x ∈ l := by
  induction l with
  | nil => simp [sortStrings]
  | cons a as ih =>
    rw [show sortStrings (a :: as) = insertSorted a (sortStrings as) from rfl,
      mem_insertSorted, ih]
    simp [List.mem_cons]

/-- A record with a given role URI appears in the output of the roles loop
iff that URI is among the processed URIs and survives the parenthetical
filter — independently of the mappings, the role types (hence of the
parsed category) and the display-order accumulator. -/
theorem mem_rolesLoop_role_uri (mappings : List (String × String))
    (roleTypes : List (String × List RoleTypeIn)) :
    ∀ (uris : List String) (ord : Nat) (uri : String),
      (∃ r ∈ rolesLoop mappings roleTypes uris ord, r.role_uri = uri) ↔
        (uri ∈ uris ∧
          listContainsSub "parenthetical".data (pyLower uri).data = false) := by
  intro uris
  induction uris with
  | nil => simp [rolesLoop]
  | cons a rest ih =>
    intro ord uri
    rw [rolesLoop]
    by_cases hp : listContainsSub "parenthetical".data (pyLower a).data = true
    · rw [if_pos hp, ih ord uri]
      constructor
      · rintro ⟨hm, hpar⟩
        exact ⟨List.mem_cons_of_mem _ hm, hpar⟩
      · rintro ⟨hm, hpar⟩
        rcases List.mem_cons.mp hm with rfl | hm2
        · rw [hpar] at hp
          cases hp
        · exact ⟨hm2, hpar⟩
    · rw [if_neg hp]
      rw [Bool.not_eq_true] at hp
      constructor
      · rintro ⟨r, hr, hru⟩
        rcases List.mem_cons.mp hr with rfl | hr2
        · exact ⟨by rw [← hru]; exact List.mem_cons_self _ _, by
            rw [← hru]; exact hp⟩
        · have := (ih (ord + 1) uri).mp ⟨r, hr2, hru⟩
          exact ⟨List.mem_cons_of_mem _ this.1, this.2⟩
      · rintro ⟨hm, hpar⟩
        rcases List.mem_cons.mp hm with rfl | hm2
        · exact ⟨_, List.mem_cons_self _ _, rfl⟩
        · obtain ⟨r, hr, hru⟩ := (ih (ord + 1) uri).mpr ⟨hm2, hpar⟩
          exact ⟨r, List.mem_cons_of_mem _ hr, hru⟩

/-- C4 counterexample: an active role whose definition parses to the
category `"Document"` (not `"statement"`) still yields a StatementRole
record — the extractor never consults the parsed category. -/
theorem c4_counterexample_document_role_returned :
    (extract_statement_roles []
      [("http://x/role/Cover",
        [{ definition := some "000010 - Document - Cover Page",
           genLabel := none }])]
      [presEdge0 "dei:CoverAbstract" "dei:DocumentType"
        "http://x/role/Cover"]).map (fun r => r.role_uri) =
      ["http://x/role/Cover"] ∧
    parse_role_definition "000010 - Document - Cover Page" =
      some ("Document", "Cover Page") :=
  ⟨by decide, by decide⟩

/-- C4 (amended): a StatementRole record for a role URI is returned iff the
URI is active (carries some presentation relationship) and does not contain
the substring `"parenthetical"` (case-insensitively); the parsed category
of the role definition is never consulted, so roles of any category are
classified and returned. -/
theorem c4_roles_filtered_only_by_parenthetical
    (mappings : List (String × String))
    (roleTypes : List (String × List RoleTypeIn))
    (presRels : List PresEdge) (uri : String) :
    uri ∈ (extract_statement_roles mappings roleTypes presRels).map
        (fun r => r.role_uri) ↔
      (uri ∈ presRels.map (fun e => e.linkrole) ∧
        listContainsSub "parenthetical".data (pyLower uri).data = false) := by
  rw [extract_statement_roles, List.mem_map]
  have h := mem_rolesLoop_role_uri mappings roleTypes
    (sortStrings ((presRels.map (fun r => r.linkrole)).dedup)) 1 uri
  rw [mem_sortStrings, List.mem_dedup] at h
  exact h

/-- C4 (amended) witness: the cover-page role of the counterexample is
active and non-parenthetical, so a record for it is returned. -/
theorem c4_roles_filtered_only_by_parenthetical_witness :
    "http://x/role/Cover" ∈ (extract_statement_roles []
      [("http://x/role/Cover",
        [{ definition := some "000010 - Document - Cover Page",
           genLabel := none }])]
      [presEdge0 "dei:CoverAbstract" "dei:DocumentType"
        "http://x/role/Cover"]).map (fun r => r.role_uri) :=
  (c4_roles_filtered_only_by_parenthetical []
    [("http://x/role/Cover",
      [{ definition := some "000010 - Document - Cover Page",
         genLabel := none }])]
    [presEdge0 "dei:CoverAbstract" "dei:DocumentType" "http://x/role/Cover"]
    "http://x/role/Cover").mpr ⟨by decide, by decide⟩


/-! ### C8: termination of the traversals -/

/-- C8: both rooted hierarchical traversals terminate on every finite
relationship graph, cyclic or not: a call-stack budget of one more than the
number of not-yet-visited parent concepts always suffices, and with it the
step-indexed recursion computes exactly the value of the traversal. -/
theorem c8_traversals_terminate :
    (∀ (relSet : List PresEdge) (conceptKey : String) (depth : Nat)
        (visited : List String),
      traverse_presentation_fuel (unvisitedCount (presNodes relSet) visited + 1)
          relSet conceptKey depth visited =
        some (traverse_presentation_tree relSet conceptKey depth visited)) ∧
    (∀ (relSet : List DMEdge) (conceptKey roleUri : String) (depth : Nat)
        (visited : List String),
      traverse_domain_member_fuel (unvisitedCount (dmNodes relSet) visited + 1)
          relSet conceptKey roleUri depth visited =
        some (traverse_domain_member_tree relSet conceptKey roleUri depth
          visited)) :=
  ⟨fun relSet c d v =>
    traverse_presentation_fuel_eq _ relSet c d v (Nat.lt_succ_self _),
   fun relSet c r d v =>
    traverse_domain_member_fuel_eq _ relSet c r d v (Nat.lt_succ_self _)⟩

/-! ### C2: which element failures abort the extraction -/

/-- Whether an `Except` computation succeeded. -/
def exceptIsOk : Except ε α → Bool
  | .ok _ => true
  | .error _ => false

/-- The contexts pass succeeds iff the entity identifier of every context
is readable. -/
theorem extract_contexts_ok_iff (l : List (String × ContextIn)) :
    exceptIsOk (extract_contexts l) = true ↔
      ∀ p ∈ l, p.2.entityIdentifier.isSome := by
  induction l with
  | nil => simp [extract_contexts, exceptIsOk]
  | cons e rest ih =>
    obtain ⟨cid, ctx⟩ := e
    rw [extract_contexts]
    cases hei : ctx.entityIdentifier with
    | none => simp [processContext, hei, exceptIsOk]
    | some pr =>
      obtain ⟨sch, idf⟩ := pr
      simp only [processContext, hei]
      cases hr : extract_contexts rest with
      | error msg =>
        rw [hr] at ih
        simp only [exceptIsOk] at ih ⊢
        refine ⟨fun h => absurd h (by simp), fun hall => ?_⟩
        exact absurd
          (ih.mpr (fun p hp => hall p (List.mem_cons_of_mem _ hp)))
          (by simp)
      | ok cs =>
        rw [hr] at ih
        simp only [exceptIsOk] at ih ⊢
        refine ⟨fun _ p hp => ?_, fun _ => trivial⟩
        rcases List.mem_cons.mp hp with rfl | hp2
        · simp [hei]
        · exact (ih.mp trivial) p hp2

/-- A document whose single context has an unreadable entity identifier:
the Document Model Provider loads it, but the extraction aborts. -/
def c2BadModel : ModelXbrlIn :=
  { modelDocumentType := some "instance"
    contexts := [("c1",
      { entityIdentifier := none
        periodKind := .instantK
        instantDatetime := some "2024-12-31 00:00:00"
        startDatetime := none
        endDatetime := none
        qnameDims := none })]
    units := []
    facts := []
    qnameConcepts := []
    roleTypes := []
    presRels := []
    presRoots := none
    calcRels := []
    calcRels11 := none
    allRels := []
    notAllRels := []
    hypercubeDimensionRels := []
    dimensionDomainRels := []
    dimensionDefaultRels := []
    domainMemberRels := []
    domainMemberRoots := none }

/-- C2 counterexample: a malformed entity identifier on a single context —
one of the very failures the claim says never abort — makes the whole
extraction fail instead of returning an aggregate document. -/
theorem c2_counterexample_bad_context_aborts :
    extract_all_data (fun s => s) [] c2BadModel =
      .error "AttributeError: entityIdentifier" := rfl

/-- C2 (amended): per-element failures in labels, dimensions, concepts,
roles, units and relationship endpoints never abort the extraction — the
aggregate is produced iff the entity identifier of every context is readable,
which is the one per-element access the contexts pass leaves unguarded. -/
theorem c2_aborts_iff_unreadable_context_entity
    (unescape : String → String) (mappings : List (String × String))
    (m : ModelXbrlIn) :
    exceptIsOk (extract_all_data unescape mappings m) = true ↔
      ∀ p ∈ m.contexts, p.2.entityIdentifier.isSome := by
  have h := extract_contexts_ok_iff m.contexts
  rw [extract_all_data]
  cases hr : extract_contexts m.contexts with
  | error msg =>
    rw [hr] at h
    simp [exceptIsOk] at h ⊢
    exact h
  | ok cs =>
    rw [hr] at h
    simp [exceptIsOk] at h ⊢
    exact h

/-- The bad model, with the entity identifier of its one context made
readable. -/
def c2GoodModel : ModelXbrlIn :=
  { c2BadModel with
    contexts := [("c1",
      { entityIdentifier := some ("http://www.sec.gov/CIK", "0000789019")
        periodKind := .instantK
        instantDatetime := some "2024-12-31 00:00:00"
        startDatetime := none
        endDatetime := none
        qnameDims := none })] }

/-- C2 (amended) witness: with the entity identifier readable, the same
document extracts successfully. -/
theorem c2_aborts_iff_unreadable_context_entity_witness :
    exceptIsOk (extract_all_data (fun s => s) [] c2GoodModel) = true :=
  (c2_aborts_iff_unreadable_context_entity (fun s => s) [] c2GoodModel).mpr
    (by decide)

/-! ### C5: emitted fact records -/

/-- A numeric fact whose `contextID` is `None` (and whose context is
unresolved). -/
def c5Fact : FactIn :=
  { qname :=
      { qstr := "us-gaap:Assets", localName := "Assets",
        nsURI := some "http://fasb.org/us-gaap/2024",
        pfx := some "us-gaap" }
    contextID := none
    value := some "100"
    unitID := some "u1"
    context := none
    concept := none
    isNumeric := true
    decimals := some "0"
    precision := none
    factId := none
    sourceline := none
    docBasename := none }

/-- C5 counterexample: a fact with no context reference — an identifying
field the claim says forces the record to be dropped — is still emitted,
with a null `context_ref`. -/
theorem c5_counterexample_missing_context_emitted :
    (extract_facts (fun s => s) [c5Fact]).length = 1 ∧
    (extract_facts (fun s => s) [c5Fact]).map (fun r => r.context_ref) =
      [none] :=
  ⟨by decide, by decide⟩

/-- C5 (amended): every provider fact is emitted — none are dropped — with
`concept` copied from the qname rendering and `context_ref` copied as-is
(possibly null); the `value` key is always present (holding the
HTML-stripped value, possibly null); and the numeric-only keys `decimals`
and `precision` are present exactly when `is_numeric` is true. -/
theorem c5_every_fact_emitted (unescape : String → String)
    (facts : List FactIn) :
    (extract_facts unescape facts).length = facts.length ∧
    ∀ f ∈ facts,
      (processFact unescape f).concept = f.qname.qstr ∧
      (processFact unescape f).context_ref = f.contextID ∧
      (processFact unescape f).value = f.value.map (strip_html unescape) ∧
      (processFact unescape f).is_numeric = f.isNumeric ∧
      ((processFact unescape f).decimals.isSome ↔ f.isNumeric = true) ∧
      ((processFact unescape f).precision.isSome ↔ f.isNumeric = true) := by
  constructor
  · simp [extract_facts]
  · intro f _
    refine ⟨rfl, rfl, rfl, rfl, ?_, ?_⟩ <;>
      cases hn : f.isNumeric <;> simp [processFact, hn]

/-- C5 (amended) witness: the missing-context fact is emitted with its
fields copied, and carries the numeric-only keys. -/
theorem c5_every_fact_emitted_witness :
    (extract_facts (fun s => s) [c5Fact]).length = 1 ∧
    (processFact (fun s => s) c5Fact).context_ref = none ∧
    ((processFact (fun s => s) c5Fact).decimals.isSome ↔
      c5Fact.isNumeric = true) :=
  ⟨(c5_every_fact_emitted (fun s => s) [c5Fact]).1,
   ((c5_every_fact_emitted (fun s => s) [c5Fact]).2 c5Fact
     (by decide)).2.1,
   ((c5_every_fact_emitted (fun s => s) [c5Fact]).2 c5Fact
     (by decide)).2.2.2.2.1⟩

/-! ### C6: unit classification -/

/-- C6: every emitted unit record populates exactly one of the simple-unit
keys (`measures`, `measure`) or the divide-unit keys (`numerator`,
`denominator` and their `_measure` views), matching its `unit_type`; and a
unit is classified divide iff its measure tuple has exactly two parts with
a non-empty second part, everything else being simple. -/
theorem c6_units_exactly_one_shape (us : List (String × UnitIn)) :
    (∀ r ∈ extract_units us,
      (r.unit_type = "divide" ∧ r.measures = none ∧ r.measure = none ∧
        r.numerator.isSome ∧ r.denominator.isSome ∧
        r.numerator_measure.isSome ∧ r.denominator_measure.isSome) ∨
      (r.unit_type = "simple" ∧ r.measures.isSome ∧ r.measure.isSome ∧
        r.numerator = none ∧ r.denominator = none ∧
        r.numerator_measure = none ∧ r.denominator_measure = none)) ∧
    ∀ e ∈ us, ((processUnit e).unit_type = "divide" ↔
      (e.2.measures.length = 2 ∧ e.2.measures.getD 1 [] ≠ [])) := by
  constructor
  · intro r hr
    obtain ⟨e, _, rfl⟩ := List.mem_map.mp hr
    obtain ⟨uid, u⟩ := e
    by_cases hc : u.measures.length = 2 ∧ u.measures.getD 1 [] ≠ []
    · left
      simp only [processUnit]
      rw [if_pos hc]
      simp
    · right
      simp only [processUnit]
      rw [if_neg hc]
      simp
  · intro e _
    obtain ⟨uid, u⟩ := e
    by_cases hc : u.measures.length = 2 ∧ u.measures.getD 1 [] ≠ []
    · simp only [processUnit]
      rw [if_pos hc]
      exact iff_of_true rfl hc
    · simp only [processUnit]
      rw [if_neg hc]
      show ("simple" : String) = "divide" ↔ _
      exact iff_of_false (by decide) hc

/-- C6 witness: the unit scenarios of the spec.  `(("USD",), ("shares",))` is a
divide unit with numerator measure `USD` and denominator measure `shares`;
`(("USD",), ())` is a simple unit with measure `USD`; a unit with no
measures at all is simple with an empty measure list. -/
theorem c6_units_exactly_one_shape_witness :
    (processUnit ("u1", { measures := [["USD"], ["shares"]] })).unit_type =
      "divide" ∧
    (processUnit ("u1",
      { measures := [["USD"], ["shares"]] })).numerator_measure =
      some (some "USD") ∧
    (processUnit ("u1",
      { measures := [["USD"], ["shares"]] })).denominator_measure =
      some (some "shares") ∧
    (processUnit ("u2", { measures := [["USD"], []] })).unit_type =
      "simple" ∧
    (processUnit ("u2", { measures := [["USD"], []] })).measure =
      some (some "USD") ∧
    (processUnit ("u3", { measures := [] })).unit_type = "simple" ∧
    (processUnit ("u3", { measures := [] })).measures = some [] ∧
    ((processUnit ("u1", { measures := [["USD"], ["shares"]] })).unit_type =
        "divide" ↔
      (([["USD"], ["shares"]] : List (List String)).length = 2 ∧
        ([["USD"], ["shares"]] : List (List String)).getD 1 [] ≠ [])) :=
  ⟨by decide, by decide, by decide, by decide, by decide, by decide,
   by decide,
   (c6_units_exactly_one_shape
     [("u1", { measures := [["USD"], ["shares"]] })]).2
     ("u1", { measures := [["USD"], ["shares"]] }) (by decide)⟩

/-! ### C9: the terse label of a fact record -/

/-- The terse-label component of the fact label block is set iff the
standard-label call did not raise, the terse-label call returned non-empty
text, and that raw text differs from the raw standard label. -/
theorem factLabels_terse_isSome_iff (unescape : String → String)
    (c : ConceptRefIn) :
    (factLabels unescape c).2.isSome ↔
      ∃ sl, c.standardLabel = some sl ∧ ∃ t, c.terseLabel = some (some t) ∧
        t ≠ "" ∧ some t ≠ sl := by
  unfold factLabels
  cases hsl : c.standardLabel with
  | none => simp
  | some slRaw =>
    cases htl : c.terseLabel with
    | none => simp
    | some tlRaw =>
      cases tlRaw with
      | none => simp
      | some t =>
        show ((if t ≠ "" ∧ some t ≠ slRaw then some (unescape t)
            else none).isSome = true) ↔ _
        by_cases hcond : t ≠ "" ∧ some t ≠ slRaw
        · rw [if_pos hcond]
          exact iff_of_true rfl ⟨slRaw, rfl, t, rfl, hcond.1, hcond.2⟩
        · rw [if_neg hcond]
          refine iff_of_false (by simp) ?_
          rintro ⟨sl, hsl2, t2, ht2, hne, hneq⟩
          obtain rfl : sl = slRaw := (Option.some.inj hsl2).symm
          obtain rfl : t2 = t :=
            (Option.some.inj (Option.some.inj ht2)).symm
          exact hcond ⟨hne, hneq⟩

/-- C9: a fact record carries the `terse_label` key iff the standard-label
resolution of its concept did not fail, the terse label resolved to
non-empty text, and that text differs from the standard label; in
particular when the terse label equals the standard label the key is
omitted. -/
theorem c9_terse_label_only_when_distinct (unescape : String → String)
    (f : FactIn) :
    ((processFact unescape f).terse_label.isSome ↔
      ∃ c, f.concept = some c ∧
        ∃ sl, c.standardLabel = some sl ∧ ∃ t, c.terseLabel = some (some t) ∧
          t ≠ "" ∧ some t ≠ sl) ∧
    ∀ c t, f.concept = some c → c.standardLabel = some (some t) →
      c.terseLabel = some (some t) →
      (processFact unescape f).terse_label = none := by
  have hterse : (processFact unescape f).terse_label =
      (match f.concept with
       | some c => factLabels unescape c
       | none => (none, none)).2 := rfl
  constructor
  · rw [hterse]
    cases hco : f.concept with
    | none => simp
    | some c =>
      show (factLabels unescape c).2.isSome ↔ _
      rw [factLabels_terse_isSome_iff unescape c]
      simp
  · intro c t hco hsl htl
    rw [hterse, hco]
    show (factLabels unescape c).2 = none
    unfold factLabels
    rw [hsl, htl]
    simp

/-- A concept whose terse label equals its standard label. -/
def c9ConceptSame : ConceptRefIn :=
  { standardLabel := some (some "Assets")
    terseLabel := some (some "Assets")
    typeQname := none }

/-- A concept whose terse label is non-empty and differs from the standard
label. -/
def c9ConceptDiff : ConceptRefIn :=
  { standardLabel := some (some "Assets, Total")
    terseLabel := some (some "Assets")
    typeQname := none }

/-- C9 witness: with equal terse and standard labels the `terse_label` key
is omitted; with a distinct non-empty terse label it is present. -/
theorem c9_terse_label_only_when_distinct_witness :
    (processFact (fun s => s)
      { c5Fact with concept := some c9ConceptSame }).terse_label = none ∧
    (processFact (fun s => s)
      { c5Fact with concept := some c9ConceptDiff }).terse_label.isSome :=
  ⟨(c9_terse_label_only_when_distinct (fun s => s)
      { c5Fact with concept := some c9ConceptSame }).2 c9ConceptSame
      "Assets" rfl rfl rfl,
   (c9_terse_label_only_when_distinct (fun s => s)
      { c5Fact with concept := some c9ConceptDiff }).1.mpr
      ⟨c9ConceptDiff, rfl, some "Assets, Total", rfl, "Assets", rfl,
        by decide, by decide⟩⟩

/-! ### C10: the dimensions key -/

/-- C10: the `dimensions` key of a context record or fact record is present
iff at least one dimension entry was collected for it, and an empty
`dimensions` list is never emitted. -/
theorem c10_dimensions_key_iff_nonempty :
    (∀ (e : String × ContextIn) (out : ContextOut),
      processContext e = .ok out →
        out.dimensions ≠ some [] ∧
        (out.dimensions.isSome ↔ contextDims e.2 ≠ [])) ∧
    (∀ (unescape : String → String) (f : FactIn),
      (processFact unescape f).dimensions ≠ some [] ∧
      ((processFact unescape f).dimensions.isSome ↔
        ∃ ctx, f.context = some ctx ∧ factDims ctx ≠ [])) := by
  constructor
  · rintro ⟨cid, ctx⟩ out hok
    cases hei : ctx.entityIdentifier with
    | none => simp [processContext, hei] at hok
    | some pr =>
      obtain ⟨sch, idf⟩ := pr
      have hout : out.dimensions =
          (if (contextDims ctx).isEmpty then none
           else some (contextDims ctx)) := by
        simp only [processContext, hei] at hok
        cases hok
        rfl
      rw [hout]
      by_cases hd : (contextDims ctx).isEmpty
      · rw [if_pos hd]
        exact ⟨by simp, by simp [List.isEmpty_iff.mp hd]⟩
      · have hne : contextDims ctx ≠ [] := fun hc => by
          rw [hc] at hd
          simp at hd
        rw [if_neg hd]
        refine ⟨fun hcontra => hne (Option.some.inj hcontra), ?_⟩
        simp [hne]
  · intro unescape f
    have hdim : (processFact unescape f).dimensions =
        (match f.context with
         | some ctx =>
           if (factDims ctx).isEmpty then none else some (factDims ctx)
         | none => none) := rfl
    rw [hdim]
    cases hctx : f.context with
    | none => simp
    | some ctx =>
      show (if (factDims ctx).isEmpty then none
          else some (factDims ctx)) ≠ some [] ∧ _
      by_cases hd : (factDims ctx).isEmpty
      · rw [if_pos hd]
        exact ⟨by simp, by simp [List.isEmpty_iff.mp hd]⟩
      · have hne : factDims ctx ≠ [] := fun hc => by
          rw [hc] at hd
          simp at hd
        rw [if_neg hd]
        refine ⟨fun hcontra => hne (Option.some.inj hcontra), ?_⟩
        simp [hne]

/-- A context carrying one explicit dimension. -/
def c10Ctx : ContextIn :=
  { entityIdentifier := some ("http://www.sec.gov/CIK", "0000789019")
    periodKind := .instantK
    instantDatetime := some "2024-12-31 00:00:00"
    startDatetime := none
    endDatetime := none
    qnameDims := some
      [(some
          { qstr := "us-gaap:StatementClassOfStockAxis",
            localName := "StatementClassOfStockAxis", nsURI := none,
            pfx := none },
        some
          { memberQname := some (some
              { qstr := "us-gaap:CommonStockMember",
                localName := "CommonStockMember", nsURI := none,
                pfx := none })
            typedMemberStr := none
            memberLabel := some "Common Stock" })] }

/-- The context record the extractor builds for `c10Ctx`. -/
def c10CtxOut : ContextOut :=
  { id := "c1"
    entity := { identifier := "0000789019", scheme := "http://www.sec.gov/CIK" }
    period := .instantP (some "2024-12-31 00:00:00")
    dimensions := some
      [{ dimension := "us-gaap:StatementClassOfStockAxis",
         dimType := "explicit",
         value := some "us-gaap:CommonStockMember" }] }

/-- C10 witness: a one-dimension context record (key present, non-empty)
and a context-less fact record (key absent), evaluated concretely. -/
theorem c10_dimensions_key_iff_nonempty_witness :
    processContext ("c1", c10Ctx) = .ok c10CtxOut ∧
    c10CtxOut.dimensions ≠ some [] ∧
    (processFact (fun s => s) c5Fact).dimensions = none :=
  ⟨rfl,
   (c10_dimensions_key_iff_nonempty.1 ("c1", c10Ctx) c10CtxOut rfl).1,
   by decide⟩

end SecXbrl
